import Mathlib

/-!
# vreserve: the volume service and its client

A shallow embedding of `core/volume_service.go` and `core/volume_client.go`.

* A Go `string` is a Lean `String`.  The code only splits on the ASCII
  separators `"\n"` and `" "`, tests prefixes, compares with `""` and takes
  `len`, all of which agree between the UTF-8 bytes and the characters.
* A Go `map[string]T` is an association list with at most the first binding of
  a key visible (`GoMap`).
* A `*Volume` held by the registry is represented by the key under which the
  registry stores it: `NewVolume` is the only allocation site and its result is
  stored under exactly one key.
* A run-time panic (index out of range) is the `none` of `Option`.
* The operating system is an explicit `Env`: `runtime.GOOS`, the result of
  running `df`, and the free-space probe.
* The `Volume` type and its methods are declared outside the given sources;
  they are modelled from the specification and marked as such.
* Logging is not modelled.
-/

namespace Vreserve

/-! ## Go strings -/

/-- The pieces of a character list between occurrences of `sep`
(`strings.Split` with a one-character separator). -/
def splitChars (sep : Char) : List Char → List (List Char)
  | [] => [[]]
  | c :: cs =>
    if c = sep then [] :: splitChars sep cs
    else
      match splitChars sep cs with
      | [] => [[c]]
      | w :: ws => (c :: w) :: ws

/-- Go `strings.Split(s, sep)` for a separator of one character. -/
def Split (s : String) (sep : Char) : List String :=
  (splitChars sep s.data).map String.mk

/-- Go `strings.HasPrefix(s, p)`. -/
def HasPrefix (s p : String) : Bool :=
  p.data.isPrefixOf s.data

/-- Go `len(s)`: the number of bytes of `s`. -/
def len (s : String) : Nat :=
  s.utf8ByteSize

/-- A Go `error` value, kept as the way it was built: by `fmt.Errorf` from a
format text, or by code outside this repository. -/
inductive GoError where
  | errorf (format : String)
  | other (msg : String)
deriving DecidableEq, Repr

/-! ## Go maps -/

/-- A Go `map[string]β`: the first binding of a key is the visible one. -/
abbrev GoMap (β : Type) := List (String × β)

/-- Go `m[k]` with the comma-ok result. -/
def GoMap.get? {β : Type} : GoMap β → String → Option β
  | [], _ => none
  | (k', v) :: rest, k => if k' = k then some v else GoMap.get? rest k

/-- Go `delete(m, k)`. -/
def GoMap.delete {β : Type} : GoMap β → String → GoMap β
  | [], _ => []
  | (k', v) :: rest, k =>
    if k' = k then GoMap.delete rest k else (k', v) :: GoMap.delete rest k

/-- Go `m[k] = v`: the binding of `k` is overwritten where it stands, a new
key is added. -/
def GoMap.set {β : Type} : GoMap β → String → β → GoMap β
  | [], k, v => [(k, v)]
  | (k', v') :: rest, k, v =>
    if k' = k then (k', v) :: rest else (k', v') :: GoMap.set rest k v

/-! ## The operating system -/

/-- What the code reads from its environment. -/
structure Env where
  /-- The value of `runtime.GOOS`. -/
  goos : String
  /-- The result of `exec.Command("df").Output()`: the output, or the error. -/
  df : Except GoError String
  /-- Modelled from the spec: the live free-space query of the ledger, the free
  bytes of the volume mounted at a mount point, `none` when the probe fails. -/
  freeSpace : String → Option Nat

/-! ## GetMountPointFromPath -/

/-- The body of the `for i, line := range lines` loop of `GetMountPointFromPath`,
from index `i` on, with the current value of `matchingMountpoint`.
`maxPrefixLen` is read by the loop and never assigned.  `none` is the
index-out-of-range panic of `words[len(words)-1]`. -/
def scanLines (path : String) (maxPrefixLen : Nat) :
    Nat → List String → String → Option String
  | _, [], matchingMountpoint => some matchingMountpoint
  | i, line :: rest, matchingMountpoint =>
    if i > 0 then
      let words := Split line ' '
      match words[words.length - 1]? with
      | none => none
      | some mountpoint =>
        if HasPrefix path mountpoint && decide (len mountpoint > maxPrefixLen) then
          scanLines path maxPrefixLen (i + 1) rest mountpoint
        else
          scanLines path maxPrefixLen (i + 1) rest matchingMountpoint
    else
      scanLines path maxPrefixLen (i + 1) rest matchingMountpoint

/-- Go `GetMountPointFromPath(path)`: `some (.ok mountpoint)` for
`(mountpoint, nil)`, `some (.error e)` for `("", err)`, `none` for a panic. -/
def GetMountPointFromPath (env : Env) (path : String) : Option (Except GoError String) :=
  if env.goos = "windows" then
    some (.error (GoError.errorf "windows is not supported :("))
  else
    match env.df with
    | .error err => some (.error err)
    | .ok out =>
      let matchingMountpoint := ""
      let maxPrefixLen := 0
      let lines := Split out '\n'
      (scanLines path maxPrefixLen 0 lines matchingMountpoint).map .ok

/-! ## The volume ledger -/

/-- Modelled from the spec: the Volume Ledger, Go type `Volume`, whose
declaration is not among the sources.  It holds the mount point identifier and
the mapping from path to reserved byte count. -/
structure Volume where
  mountPoint : String
  claimed : GoMap Nat
deriving DecidableEq, Repr

/-- Modelled from the spec: the failures of the ledger operations. -/
inductive VolumeError where
  | InvalidArgument
  | InsufficientSpace
  | ProbeFailed
deriving DecidableEq, Repr

/-- Modelled from the spec: the text of a ledger failure, which the spec names
and does not spell. -/
def VolumeError.Error : VolumeError → String
  | .InvalidArgument => "InvalidArgument"
  | .InsufficientSpace => "InsufficientSpace"
  | .ProbeFailed => "ProbeFailed"

/-- Modelled from the spec: `NewVolume(mountpoint)`, a new, empty ledger for
the mount point. -/
def NewVolume (mountpoint : String) : Volume :=
  { mountPoint := mountpoint, claimed := [] }

/-- Modelled from the spec: the total of the bytes reserved in a ledger. -/
def Volume.reservedTotal (volume : Volume) : Nat :=
  (volume.claimed.map Prod.snd).sum

/-- Modelled from the spec: `reserve(path, bytes)`.  Rejects an empty path or
zero bytes; computes `available` as the live free space minus the reserved
total; records or overwrites the reservation when `bytes <= available`, and
fails leaving the ledger unchanged otherwise. -/
def Volume.Reserve (env : Env) (volume : Volume) (path : String) (bytes : Nat) :
    Volume × Option VolumeError :=
  if path = "" ∨ bytes = 0 then (volume, some .InvalidArgument)
  else
    match env.freeSpace volume.mountPoint with
    | none => (volume, some .ProbeFailed)
    | some free =>
      let available := free - volume.reservedTotal
      if bytes ≤ available then
        ({ volume with claimed := volume.claimed.set path bytes }, none)
      else (volume, some .InsufficientSpace)

/-- Modelled from the spec: `release(path)`.  Rejects an empty path; removes
the reservation of the path if present, and is a no-op if absent. -/
def Volume.Release (volume : Volume) (path : String) : Volume × Option VolumeError :=
  if path = "" then (volume, some .InvalidArgument)
  else ({ volume with claimed := volume.claimed.delete path }, none)

/-- Modelled from the spec: `snapshot()`, Go `Reservations()`, a copy of the
current reservations. -/
def Volume.Reservations (volume : Volume) : GoMap Nat :=
  volume.claimed

/-! ## The volume service -/

/-- Go `VolumeService`, without its logger. -/
structure VolumeService where
  host : String
  port : Int
  volumes : GoMap Volume
deriving DecidableEq, Repr

/-- Go `NewVolumeService(host, port, logger)`. -/
def NewVolumeService (host : String) (port : Int) : VolumeService :=
  { host := host, port := port, volumes := [] }

/-- The first statements of `getVolume`: the mount point that
`GetMountPointFromPath` gives, replaced by `"/"` when it gives an error. -/
def resolveMountpoint (env : Env) (path : String) : Option String :=
  match GetMountPointFromPath env path with
  | none => none
  | some (.ok mountpoint) => some mountpoint
  | some (.error _) => some "/"

/-- Go `service.getVolume(path)`.  The result is the service after the call and
the key of `service.volumes` whose `*Volume` is returned. -/
def VolumeService.getVolume (service : VolumeService) (env : Env) (path : String) :
    Option (VolumeService × String) :=
  match resolveMountpoint env path with
  | none => none
  | some mountpoint =>
    let service :=
      if (service.volumes.get? mountpoint).isNone then
        { service with volumes := service.volumes.set mountpoint (NewVolume mountpoint) }
      else service
    some (service, mountpoint)

/-- The `Volume` behind a `*Volume` of the registry. -/
def VolumeService.deref (service : VolumeService) (ref : String) : Option Volume :=
  service.volumes.get? ref

/-- The state of the `Volume` behind a `*Volume` of the registry after a method
call on it. -/
def VolumeService.store (service : VolumeService) (ref : String) (volume : Volume) :
    VolumeService :=
  { service with volumes := service.volumes.set ref volume }

/-- Go `VolumeResponse`, with the fields that the handlers, the client and the
tests use.  A nil `Data` map is `none`. -/
structure VolumeResponse where
  Succeeded : Bool
  ErrorMessage : String
  Data : Option (GoMap Nat)
deriving DecidableEq, Repr

/-- The part of `*http.Request` that the handlers read. -/
structure Request where
  Form : GoMap (List String)
  RemoteAddr : String
deriving DecidableEq, Repr

/-- Go `r.FormValue(key)`: the first value of the key, `""` without one. -/
def Request.FormValue (r : Request) (key : String) : String :=
  match r.Form.get? key with
  | some (v :: _) => v
  | _ => ""

/-- Go `strconv.ParseUint(s, 10, 64)`: the value and the error. -/
def ParseUint (s : String) : Nat × Option GoError :=
  if s.data = [] then (0, some (.other "invalid syntax"))
  else if s.data.all Char.isDigit then
    let n := s.data.foldl (fun acc c => 10 * acc + (c.toNat - 48)) 0
    if n < 2 ^ 64 then (n, none)
    else (2 ^ 64 - 1, some (.other "value out of range"))
  else (0, some (.other "invalid syntax"))

def StatusOK : Nat := 200
def StatusBadRequest : Nat := 400
def StatusInternalServerError : Nat := 500

/-- What a handler leaves behind: the service, the status written and the
response that is marshalled into the body. -/
structure Reply where
  service : VolumeService
  status : Nat
  response : VolumeResponse
deriving DecidableEq, Repr

/-- The zero value `&VolumeResponse{}`. -/
def VolumeResponse.zero : VolumeResponse :=
  { Succeeded := false, ErrorMessage := "", Data := none }

/-- The function returned by Go `service.makeReserveHandler()`, applied to a
request.  `none` is a panic. -/
def VolumeService.makeReserveHandler (service : VolumeService) (env : Env) (r : Request) :
    Option Reply :=
  let response := VolumeResponse.zero
  let status := StatusOK
  let path := r.FormValue "path"
  let (bytes, err) := ParseUint (r.FormValue "bytes")
  if path = "" then
    some { service := service, status := StatusBadRequest,
           response := { response with
             Succeeded := false, ErrorMessage := "Param 'path' is required." } }
  else if err ≠ none ∨ bytes < 1 then
    some { service := service, status := StatusBadRequest,
           response := { response with
             Succeeded := false,
             ErrorMessage := "Param 'bytes' must be an integer greater than zero." } }
  else
    match service.getVolume env path with
    | none => none
    | some (service, volume) =>
      match service.deref volume with
      | none => none
      | some v =>
        let (v, err) := v.Reserve env path bytes
        let service := service.store volume v
        match err with
        | some err =>
          some { service := service, status := StatusInternalServerError,
                 response := { response with
                   Succeeded := false,
                   ErrorMessage := "Could not reserve " ++ toString bytes
                     ++ " bytes for file '" ++ path ++ "': " ++ err.Error } }
        | none =>
          some { service := service, status := status,
                 response := { response with Succeeded := true } }

/-- The function returned by Go `service.makeReleaseHandler()`, applied to a
request.  `none` is a panic. -/
def VolumeService.makeReleaseHandler (service : VolumeService) (env : Env) (r : Request) :
    Option Reply :=
  let response := VolumeResponse.zero
  let path := r.FormValue "path"
  let status := StatusOK
  if path = "" then
    some { service := service, status := StatusBadRequest,
           response := { response with
             Succeeded := false, ErrorMessage := "Param 'path' is required." } }
  else
    match service.getVolume env path with
    | none => none
    | some (service, volume) =>
      match service.deref volume with
      | none => none
      | some v =>
        let (v, _) := v.Release path
        let service := service.store volume v
        some { service := service, status := status,
               response := { response with Succeeded := true } }

/-- The function returned by Go `service.makeReportHandler()`, applied to a
request.  `none` is a panic. -/
def VolumeService.makeReportHandler (service : VolumeService) (env : Env) (r : Request) :
    Option Reply :=
  let response := VolumeResponse.zero
  let path := r.FormValue "path"
  let status := StatusOK
  if path = "" then
    some { service := service, status := StatusBadRequest,
           response := { response with
             Succeeded := false, ErrorMessage := "Param 'path' is required." } }
  else
    match service.getVolume env path with
    | none => none
    | some (service, volume) =>
      match service.deref volume with
      | none => none
      | some v =>
        some { service := service, status := status,
               response := { response with Succeeded := true, Data := some v.Reservations } }

/-- The function returned by Go `service.makePingHandler()`, applied to a
request. -/
def VolumeService.makePingHandler (service : VolumeService) (_r : Request) : Option Reply :=
  let response := VolumeResponse.zero
  let status := StatusOK
  some { service := service, status := status,
         response := { response with Succeeded := true } }

/-! ## The volume client -/

/-- Go `VolumeClient`. -/
structure VolumeClient where
  serviceUrl : String
deriving DecidableEq, Repr

/-- Go `NewVolumeClient(serviceUrl)`. -/
def NewVolumeClient (serviceUrl : String) : VolumeClient :=
  { serviceUrl := serviceUrl }

/-- Go `client.BaseURL()`. -/
def VolumeClient.BaseURL (client : VolumeClient) : String :=
  client.serviceUrl

/-- An HTTP request sent by the client. -/
inductive HttpCall where
  | PostForm (url : String) (params : GoMap (List String))
  | Get (url : String)
deriving DecidableEq, Repr

/-- The network and the decoder as the client sees them: for each request the
transport error or else the result of reading the body (the read error or the
bytes), and `json.Unmarshal` into a `VolumeResponse`. -/
structure Network where
  PostForm : String → GoMap (List String) → Except GoError (Except GoError String)
  Get : String → Except GoError (Except GoError String)
  Unmarshal : String → Except GoError VolumeResponse

/-- Go `client.doRequest(url, params)`: the two results, and the requests sent. -/
def VolumeClient.doRequest (_client : VolumeClient) (net : Network) (url : String)
    (params : GoMap (List String)) : (Bool × Option GoError) × List HttpCall :=
  let sent := [HttpCall.PostForm url params]
  match net.PostForm url params with
  | .error err => ((false, some err), sent)
  | .ok body =>
    match body with
    | .error err => ((false, some err), sent)
    | .ok data =>
      match net.Unmarshal data with
      | .error err => ((false, some err), sent)
      | .ok volumeResponse =>
        if volumeResponse.ErrorMessage ≠ "" then
          ((false, some (GoError.errorf volumeResponse.ErrorMessage)), sent)
        else ((volumeResponse.Succeeded, none), sent)

/-- Go `client.Reserve(path, bytes)`: the two results, and the requests sent. -/
def VolumeClient.Reserve (client : VolumeClient) (net : Network) (path : String)
    (bytes : Nat) : (Bool × Option GoError) × List HttpCall :=
  if path = "" then
    ((false, some (GoError.errorf "path cannot be empty")), [])
  else if bytes < 1 then
    ((false, some (GoError.errorf "you must request at least one byte of storage")), [])
  else
    let reserveUrl := client.serviceUrl ++ "/reserve/"
    let params : GoMap (List String) := [("path", [path]), ("bytes", [toString bytes])]
    client.doRequest net reserveUrl params

/-- Go `client.Release(path)`: the result, and the requests sent. -/
def VolumeClient.Release (client : VolumeClient) (net : Network) (path : String) :
    Option GoError × List HttpCall :=
  let releaseUrl := client.serviceUrl ++ "/release/"
  if path = "" then
    (some (GoError.errorf "path cannot be empty"), [])
  else
    let params : GoMap (List String) := [("path", [path])]
    let (result, sent) := client.doRequest net releaseUrl params
    (result.2, sent)

/-- Go `client.Report(path)`: the two results (a nil map is `none`), and the
requests sent. -/
def VolumeClient.Report (client : VolumeClient) (net : Network) (path : String) :
    (Option (GoMap Nat) × Option GoError) × List HttpCall :=
  if path = "" then
    ((none, some (GoError.errorf "path cannot be empty")), [])
  else
    let reportUrl := client.serviceUrl ++ "/report/?path=" ++ path
    let sent := [HttpCall.Get reportUrl]
    match net.Get reportUrl with
    | .error err => ((none, some err), sent)
    | .ok body =>
      match body with
      | .error err => ((none, some err), sent)
      | .ok data =>
        match net.Unmarshal data with
        | .error err => ((none, some err), sent)
        | .ok volumeResponse =>
          if volumeResponse.ErrorMessage ≠ "" then
            ((none, some (GoError.errorf volumeResponse.ErrorMessage)), sent)
          else ((volumeResponse.Data, none), sent)

/-! ## Names for the two halves of getVolume -/

/-- The registry after `getVolume` has looked up `mountpoint`: a new ledger is
stored under the key when there was none. -/
def VolumeService.ensure (service : VolumeService) (mountpoint : String) : VolumeService :=
  if (service.volumes.get? mountpoint).isNone then
    { service with volumes := service.volumes.set mountpoint (NewVolume mountpoint) }
  else service

/-- The ledger that `getVolume` returns for `mountpoint`: the stored one, or a
new one. -/
def VolumeService.ledger (service : VolumeService) (mountpoint : String) : Volume :=
  match service.volumes.get? mountpoint with
  | some v => v
  | none => NewVolume mountpoint

/-! ## Inputs used in the examples -/

/-- A `df` report that lists `/mnt/data` before `/`. -/
def dfDataBeforeRoot : String :=
  "Filesystem 1K-blocks Used Available Use% Mounted on\n/dev/sdb1 1000 100 900 10% /mnt/data\n/dev/sda1 1000 100 900 10% /\n"

/-- A `df` report that lists `/` before `/mnt/data`. -/
def dfRootBeforeData : String :=
  "Filesystem 1K-blocks Used Available Use% Mounted on\n/dev/sda1 1000 100 900 10% /\n/dev/sdb1 1000 100 900 10% /mnt/data\n"

/-- A `df` report that lists `/` only. -/
def dfRootOnly : String :=
  "Filesystem 1K-blocks Used Available Use% Mounted on\n/dev/sda1 1000 100 900 10% /\n"

/-- A Linux host on which `df` gives `out` and every volume has `free` bytes free. -/
def linuxEnv (out : String) (free : Nat) : Env :=
  { goos := "linux", df := .ok out, freeSpace := fun _ => some free }

/-- A Windows host. -/
def windowsEnv : Env :=
  { goos := "windows", df := .error (.other "executable file not found in %PATH%"),
    freeSpace := fun _ => some 1000 }

/-- A registry that holds the ledger of `/` with a reservation of 8000 bytes for
`/tmp/some_file`. -/
def serviceWithReservation : VolumeService :=
  { host := "127.0.0.1", port := 8188,
    volumes := [("/", { mountPoint := "/", claimed := [("/tmp/some_file", 8000)] })] }

/-- The registry of `serviceWithReservation` after a further reservation of
24000 bytes for `/tmp/some_other_file`. -/
def serviceWithTwoReservations : VolumeService :=
  { host := "127.0.0.1", port := 8188,
    volumes := [("/", { mountPoint := "/",
                        claimed := [("/tmp/some_file", 8000),
                                    ("/tmp/some_other_file", 24000)] })] }

/-- A network on which every request is answered with a successful response. -/
def okNetwork : Network :=
  { PostForm := fun _ _ => .ok (.ok "\x7b\x7d"),
    Get := fun _ => .ok (.ok "\x7b\x7d"),
    Unmarshal := fun _ => .ok { Succeeded := true, ErrorMessage := "", Data := none } }

/-- The reply to a request without a path: status 400, the service as it was. -/
def pathRequired (service : VolumeService) : Reply :=
  { service := service, status := 400,
    response := { Succeeded := false, ErrorMessage := "Param 'path' is required.",
                  Data := none } }

/-- The reply to a reserve request without a positive byte count: status 400,
the service as it was. -/
def bytesRequired (service : VolumeService) : Reply :=
  { service := service, status := 400,
    response := { Succeeded := false,
                  ErrorMessage := "Param 'bytes' must be an integer greater than zero.",
                  Data := none } }

/-- A request with the form values `path` and `bytes`. -/
def reserveRequest (path bytes : String) : Request :=
  { Form := [("path", [path]), ("bytes", [bytes])], RemoteAddr := "127.0.0.1:40000" }

/-- A request with the form value `path`. -/
def pathRequest (path : String) : Request :=
  { Form := [("path", [path])], RemoteAddr := "127.0.0.1:40000" }

/-! ## The outcome of a request and the resolved mount point, as specified -/

/-- A reply is a definite outcome: `Succeeded` is true exactly when the
`ErrorMessage` is empty and exactly when the status is 200, and a reply that did
not succeed has a non-empty `ErrorMessage` and nil `Data`. -/
@[reducible] def Reply.definite (reply : Reply) : Prop :=
  (reply.response.Succeeded = true ↔ reply.response.ErrorMessage = "") ∧
  (reply.response.Succeeded = true ↔ reply.status = 200) ∧
  (reply.response.Succeeded = false →
    reply.response.ErrorMessage ≠ "" ∧ reply.response.Data = none)

/-- The last of the fields of a line that single spaces separate. -/
def lastField (line : String) : String :=
  match (Split line ' ').getLast? with
  | some field => field
  | none => ""

/-- The mount point of a path as the specification of `GetMountPointFromPath`
words it: the last field of the last line after the first line whose last field
is a non-empty prefix of the path, and the empty string without such a line. -/
def lastMatchingField (path out : String) : String :=
  match (((Split out '\n').tail.map lastField).filter
      fun field => decide (field ≠ "") && HasPrefix path field).getLast? with
  | some field => field
  | none => ""

/-! ## Lemmas on Go maps -/

theorem GoMap.get?_set_self {β : Type} (m : GoMap β) (k : String) (v : β) :
    GoMap.get? (GoMap.set m k v) k = some v := by
  induction m with
  | nil => simp [GoMap.set, GoMap.get?]
  | cons e rest ih =>
    obtain ⟨k', v'⟩ := e
    by_cases h : k' = k
    · simp [GoMap.set, GoMap.get?, h]
    · simp [GoMap.set, GoMap.get?, h, ih]

theorem GoMap.get?_set_ne {β : Type} (m : GoMap β) (k k' : String) (v : β) (h : k' ≠ k) :
    GoMap.get? (GoMap.set m k v) k' = GoMap.get? m k' := by
  induction m with
  | nil => simp [GoMap.set, GoMap.get?, Ne.symm h]
  | cons e rest ih =>
    obtain ⟨k₀, v₀⟩ := e
    by_cases h₀ : k₀ = k
    · subst h₀
      simp [GoMap.set, GoMap.get?, Ne.symm h]
    · by_cases h₁ : k₀ = k'
      · subst h₁
        simp [GoMap.set, GoMap.get?, h₀]
      · simp [GoMap.set, GoMap.get?, h₀, h₁, ih]

theorem GoMap.set_of_absent {β : Type} (m : GoMap β) (k : String) (v : β)
    (h : GoMap.get? m k = none) : GoMap.set m k v = m ++ [(k, v)] := by
  induction m with
  | nil => simp [GoMap.set]
  | cons e rest ih =>
    obtain ⟨k₀, v₀⟩ := e
    by_cases h₀ : k₀ = k
    · simp [GoMap.get?, h₀] at h
    · simp only [GoMap.get?, h₀, if_false] at h
      simp [GoMap.set, h₀, ih h]

theorem GoMap.set_of_same {β : Type} (m : GoMap β) (k : String) (v : β)
    (h : GoMap.get? m k = some v) : GoMap.set m k v = m := by
  induction m with
  | nil => simp [GoMap.get?] at h
  | cons e rest ih =>
    obtain ⟨k₀, v₀⟩ := e
    by_cases h₀ : k₀ = k
    · simp only [GoMap.get?, h₀, if_true, Option.some.injEq] at h
      simp [GoMap.set, h₀, h]
    · simp only [GoMap.get?, h₀, if_false] at h
      simp [GoMap.set, h₀, ih h]

theorem GoMap.get?_delete_self {β : Type} (m : GoMap β) (k : String) :
    GoMap.get? (GoMap.delete m k) k = none := by
  induction m with
  | nil => simp [GoMap.delete, GoMap.get?]
  | cons e rest ih =>
    obtain ⟨k₀, v₀⟩ := e
    by_cases h₀ : k₀ = k
    · simp [GoMap.delete, h₀, ih]
    · simp [GoMap.delete, GoMap.get?, h₀, ih]

theorem GoMap.get?_delete_ne {β : Type} (m : GoMap β) (k k' : String) (h : k' ≠ k) :
    GoMap.get? (GoMap.delete m k) k' = GoMap.get? m k' := by
  induction m with
  | nil => simp [GoMap.delete, GoMap.get?]
  | cons e rest ih =>
    obtain ⟨k₀, v₀⟩ := e
    by_cases h₀ : k₀ = k
    · subst h₀
      simp [GoMap.delete, GoMap.get?, Ne.symm h, ih]
    · by_cases h₁ : k₀ = k'
      · subst h₁
        simp [GoMap.delete, GoMap.get?, h₀]
      · simp [GoMap.delete, GoMap.get?, h₀, h₁, ih]

theorem GoMap.delete_of_absent {β : Type} (m : GoMap β) (k : String)
    (h : GoMap.get? m k = none) : GoMap.delete m k = m := by
  induction m with
  | nil => simp [GoMap.delete]
  | cons e rest ih =>
    obtain ⟨k₀, v₀⟩ := e
    by_cases h₀ : k₀ = k
    · simp [GoMap.get?, h₀] at h
    · simp only [GoMap.get?, h₀, if_false] at h
      simp [GoMap.delete, h₀, ih h]

theorem GoMap.delete_delete {β : Type} (m : GoMap β) (k : String) :
    GoMap.delete (GoMap.delete m k) k = GoMap.delete m k :=
  GoMap.delete_of_absent _ k (GoMap.get?_delete_self m k)

/-! ## GetMountPointFromPath does not panic -/

theorem splitChars_ne_nil (sep : Char) (cs : List Char) : splitChars sep cs ≠ [] := by
  induction cs with
  | nil => simp [splitChars]
  | cons c cs ih =>
    unfold splitChars
    split
    · simp
    · split <;> simp

theorem Split_ne_nil (s : String) (sep : Char) : Split s sep ≠ [] := by
  simp [Split, splitChars_ne_nil]

theorem lastWord_isSome (words : List String) (h : words ≠ []) :
    ∃ w, words[words.length - 1]? = some w := by
  have hlen : words.length - 1 < words.length := by
    have : 0 < words.length := List.length_pos.mpr h
    omega
  exact ⟨words[words.length - 1], List.getElem?_eq_getElem hlen⟩

theorem scanLines_isSome (path : String) (maxPrefixLen : Nat) (lines : List String) :
    ∀ (i : Nat) (m : String), ∃ r, scanLines path maxPrefixLen i lines m = some r := by
  induction lines with
  | nil => intro i m; exact ⟨m, by simp [scanLines]⟩
  | cons line rest ih =>
    intro i m
    obtain ⟨w, hw⟩ := lastWord_isSome (Split line ' ') (Split_ne_nil line ' ')
    unfold scanLines
    by_cases hi : i > 0
    · simp only [hi, if_true, hw]
      split
      · exact ih (i + 1) w
      · exact ih (i + 1) m
    · simp only [hi, if_false]
      exact ih (i + 1) m

theorem GetMountPointFromPath_isSome (env : Env) (path : String) :
    ∃ r, GetMountPointFromPath env path = some r := by
  unfold GetMountPointFromPath
  by_cases hw : env.goos = "windows"
  · simp [hw]
  · simp only [hw, if_false]
    cases hdf : env.df with
    | error e => simp
    | ok out =>
      obtain ⟨r, hr⟩ := scanLines_isSome path 0 (Split out '\n') 0 ""
      simp [hr]

theorem resolveMountpoint_isSome (env : Env) (path : String) :
    ∃ mountpoint, resolveMountpoint env path = some mountpoint := by
  obtain ⟨r, hr⟩ := GetMountPointFromPath_isSome env path
  unfold resolveMountpoint
  rw [hr]
  cases r <;> simp

/-! ## Lemmas on getVolume -/

theorem getVolume_of_resolve (service : VolumeService) (env : Env) (path mountpoint : String)
    (h : resolveMountpoint env path = some mountpoint) :
    service.getVolume env path =
      some (if (service.volumes.get? mountpoint).isNone then
              { service with volumes := service.volumes.set mountpoint (NewVolume mountpoint) }
            else service, mountpoint) := by
  simp [VolumeService.getVolume, h]

theorem getVolume_present (service : VolumeService) (env : Env) (path mountpoint : String)
    (v : Volume) (h : resolveMountpoint env path = some mountpoint)
    (hv : service.volumes.get? mountpoint = some v) :
    service.getVolume env path = some (service, mountpoint) := by
  simp [getVolume_of_resolve service env path mountpoint h, hv]

theorem getVolume_absent (service : VolumeService) (env : Env) (path mountpoint : String)
    (h : resolveMountpoint env path = some mountpoint)
    (hv : service.volumes.get? mountpoint = none) :
    service.getVolume env path =
      some ({ service with
               volumes := service.volumes ++ [(mountpoint, NewVolume mountpoint)] },
            mountpoint) := by
  simp [getVolume_of_resolve service env path mountpoint h, hv, GoMap.set_of_absent]

theorem GoMap.get?_append_absent {β : Type} (m : GoMap β) (k k' : String) (v : β)
    (h : GoMap.get? m k = none) :
    GoMap.get? (m ++ [(k, v)]) k' = if k' = k then some v else GoMap.get? m k' := by
  rw [← GoMap.set_of_absent m k v h]
  by_cases hk : k' = k
  · subst hk
    simp [GoMap.get?_set_self]
  · simp [hk, GoMap.get?_set_ne m k k' v hk]

/-! ## The mount point of a path and the registry -/

/-- C1: `GetMountPointFromPath` does not return the longest listed mount point
that is a prefix of the path.  With `/mnt/data` listed before `/`, the path
`/mnt/data/file.txt` resolves to `/`, although `/mnt/data` is listed, is a
prefix of the path and is longer; with `/` listed first the same path resolves
to `/mnt/data`.  The loop compares `len(mountpoint)` with `maxPrefixLen`, which
stays `0`, so the last listed non-empty prefix wins. -/
theorem GetMountPointFromPath_last_listed_wins :
    GetMountPointFromPath (linuxEnv dfDataBeforeRoot 1000) "/mnt/data/file.txt"
      = some (.ok "/") ∧
    GetMountPointFromPath (linuxEnv dfRootBeforeData 1000) "/mnt/data/file.txt"
      = some (.ok "/mnt/data") ∧
    ((Split dfDataBeforeRoot '\n').map fun line => (Split line ' ').getLast?)
      = [some "on", some "/mnt/data", some "/", some ""] ∧
    HasPrefix "/mnt/data/file.txt" "/mnt/data" = true ∧
    len "/" < len "/mnt/data" := by
  refine ⟨by rfl, by rfl, by decide, by decide, by decide⟩

/-- C2: when no listed mount point is a prefix of the path, `getVolume` does not
fall back to `/`.  With `/` the only mount point listed, the relative path
`tmp/x` resolves to the empty string without an error, and `getVolume` creates
and returns a ledger keyed by the empty string, leaving the registry without a
ledger for `/`; only an error of `GetMountPointFromPath` is replaced by `/`. -/
theorem getVolume_no_match_keys_empty :
    HasPrefix "tmp/x" "/" = false ∧
    GetMountPointFromPath (linuxEnv dfRootOnly 1000) "tmp/x" = some (.ok "") ∧
    (NewVolumeService "127.0.0.1" 8188).getVolume (linuxEnv dfRootOnly 1000) "tmp/x"
      = some ({ host := "127.0.0.1", port := 8188, volumes := [("", NewVolume "")] }, "") ∧
    (((NewVolumeService "127.0.0.1" 8188).getVolume (linuxEnv dfRootOnly 1000) "tmp/x").bind
      fun out => out.1.deref "/") = none := by
  refine ⟨by decide, by rfl, by rfl, by rfl⟩

theorem resolveMountpoint_of_ok (env : Env) (path mountpoint : String)
    (h : GetMountPointFromPath env path = some (.ok mountpoint)) :
    resolveMountpoint env path = some mountpoint := by
  simp [resolveMountpoint, h]

theorem resolveMountpoint_of_error (env : Env) (path : String) (err : GoError)
    (h : GetMountPointFromPath env path = some (.error err)) :
    resolveMountpoint env path = some "/" := by
  simp [resolveMountpoint, h]

/-- The key that `getVolume` uses is the mount point that `GetMountPointFromPath`
returned, and `/` when it returned an error. -/
theorem resolveMountpoint_link (env : Env) (path mountpoint : String)
    (h : resolveMountpoint env path = some mountpoint) :
    (∃ result, GetMountPointFromPath env path = some result ∧
      mountpoint = match result with
        | .ok m => m
        | .error _ => "/") ∧
    (∀ m, GetMountPointFromPath env path = some (.ok m) → mountpoint = m) ∧
    (∀ err, GetMountPointFromPath env path = some (.error err) → mountpoint = "/") := by
  refine ⟨?_, ?_, ?_⟩
  · obtain ⟨result, hres⟩ := GetMountPointFromPath_isSome env path
    refine ⟨result, hres, ?_⟩
    cases result with
    | ok m =>
      rw [resolveMountpoint_of_ok env path m hres] at h
      exact (Option.some.inj h).symm
    | error err =>
      rw [resolveMountpoint_of_error env path err hres] at h
      exact (Option.some.inj h).symm
  · intro m hm
    rw [resolveMountpoint_of_ok env path m hm] at h
    exact (Option.some.inj h).symm
  · intro err herr
    rw [resolveMountpoint_of_error env path err herr] at h
    exact (Option.some.inj h).symm

/-- C3: `getVolume` is get-or-create on the registry.  It returns the ledger
stored under the path's resolved mount point, which is the mount point that
`GetMountPointFromPath` returned for the path, and `/` when that returned an
error.  If the registry already holds a ledger for that mount point the service
is unchanged; otherwise exactly one binding, a new empty ledger for that mount
point, is added.  No existing ledger is replaced or removed, and a later call
for a path that resolves to the same mount point returns the same ledger and
changes nothing. -/
theorem getVolume_get_or_create (service : VolumeService) (env : Env) (path : String) :
    ∃ mountpoint service' v,
      resolveMountpoint env path = some mountpoint ∧
      service.getVolume env path = some (service', mountpoint) ∧
      service'.deref mountpoint = some v ∧
      (∀ w, service.volumes.get? mountpoint = some w → v = w ∧ service' = service) ∧
      (service.volumes.get? mountpoint = none →
        v = NewVolume mountpoint ∧
        service' = { service with
                      volumes := service.volumes ++ [(mountpoint, NewVolume mountpoint)] }) ∧
      (∀ k, k ≠ mountpoint → service'.volumes.get? k = service.volumes.get? k) ∧
      (∀ k w, service.volumes.get? k = some w → service'.volumes.get? k = some w) ∧
      (∀ env₂ path₂, resolveMountpoint env₂ path₂ = some mountpoint →
        service'.getVolume env₂ path₂ = some (service', mountpoint)) ∧
      (∃ result, GetMountPointFromPath env path = some result ∧
        mountpoint = match result with
          | .ok m => m
          | .error _ => "/") ∧
      (∀ m, GetMountPointFromPath env path = some (.ok m) → mountpoint = m) ∧
      (∀ err, GetMountPointFromPath env path = some (.error err) → mountpoint = "/") ∧
      (∀ env₂ path₂, GetMountPointFromPath env₂ path₂ = some (.ok mountpoint) →
        service'.getVolume env₂ path₂ = some (service', mountpoint)) := by
  obtain ⟨mp, hmp⟩ := resolveMountpoint_isSome env path
  have hlink := resolveMountpoint_link env path mp hmp
  cases hv : service.volumes.get? mp with
  | some v =>
    refine ⟨mp, service, v, hmp, getVolume_present service env path mp v hmp hv, hv,
      ?_, ?_, fun _ _ => rfl, fun _ _ h => h, ?_, hlink.1, hlink.2.1, hlink.2.2, ?_⟩
    · intro w hw
      rw [hv] at hw
      exact ⟨Option.some.inj hw, rfl⟩
    · intro hn
      rw [hv] at hn
      cases hn
    · intro env₂ path₂ h₂
      exact getVolume_present service env₂ path₂ mp v h₂ hv
    · intro env₂ path₂ h₂
      exact getVolume_present service env₂ path₂ mp v
        (resolveMountpoint_of_ok env₂ path₂ mp h₂) hv
  | none =>
    have hget : ∀ k, GoMap.get? (service.volumes ++ [(mp, NewVolume mp)]) k
        = if k = mp then some (NewVolume mp) else service.volumes.get? k :=
      fun k => GoMap.get?_append_absent service.volumes mp k (NewVolume mp) hv
    refine ⟨mp, { service with volumes := service.volumes ++ [(mp, NewVolume mp)] },
      NewVolume mp, hmp, getVolume_absent service env path mp hmp hv, ?_,
      ?_, fun _ => ⟨rfl, rfl⟩, ?_, ?_, ?_, hlink.1, hlink.2.1, hlink.2.2, ?_⟩
    · simp [VolumeService.deref, hget]
    · intro w hw
      rw [hv] at hw
      cases hw
    · intro k hk
      simp [hget, hk]
    · intro k w hw
      have hk : k ≠ mp := by
        intro h
        rw [h, hv] at hw
        cases hw
      simp [hget, hk, hw]
    · intro env₂ path₂ h₂
      exact getVolume_present _ env₂ path₂ mp (NewVolume mp) h₂ (by simp [hget])
    · intro env₂ path₂ h₂
      exact getVolume_present _ env₂ path₂ mp (NewVolume mp)
        (resolveMountpoint_of_ok env₂ path₂ mp h₂) (by simp [hget])

/-- C3 on the empty registry, with `/` listed before `/mnt/data`: the first call
for `/mnt/data/file.txt` creates the ledger of `/mnt/data`, the mount point that
`GetMountPointFromPath` returns, and a call for `/mnt/data/other` returns that
ledger and changes nothing. -/
theorem getVolume_get_or_create_witness :
    GetMountPointFromPath (linuxEnv dfRootBeforeData 1000) "/mnt/data/file.txt"
      = some (.ok "/mnt/data") ∧
    GetMountPointFromPath (linuxEnv dfRootBeforeData 1000) "/mnt/data/other"
      = some (.ok "/mnt/data") ∧
    (NewVolumeService "127.0.0.1" 8188).getVolume (linuxEnv dfRootBeforeData 1000)
        "/mnt/data/file.txt"
      = some ({ host := "127.0.0.1", port := 8188,
                volumes := [("/mnt/data", NewVolume "/mnt/data")] }, "/mnt/data") ∧
    VolumeService.getVolume
        { host := "127.0.0.1", port := 8188,
          volumes := [("/mnt/data", NewVolume "/mnt/data")] }
        (linuxEnv dfRootBeforeData 1000) "/mnt/data/other"
      = some ({ host := "127.0.0.1", port := 8188,
                volumes := [("/mnt/data", NewVolume "/mnt/data")] }, "/mnt/data") := by
  have hok : GetMountPointFromPath (linuxEnv dfRootBeforeData 1000) "/mnt/data/file.txt"
      = some (.ok "/mnt/data") := by rfl
  have hok₂ : GetMountPointFromPath (linuxEnv dfRootBeforeData 1000) "/mnt/data/other"
      = some (.ok "/mnt/data") := by rfl
  obtain ⟨mp, service', v, _, hget, _, _, habsent, _, _, _, _, hlink, _, hagain⟩ :=
    getVolume_get_or_create (NewVolumeService "127.0.0.1" 8188)
      (linuxEnv dfRootBeforeData 1000) "/mnt/data/file.txt"
  have hmp : mp = "/mnt/data" := hlink "/mnt/data" hok
  subst hmp
  have hs : service' =
      (⟨"127.0.0.1", 8188, [("/mnt/data", NewVolume "/mnt/data")]⟩ : VolumeService) :=
    (habsent rfl).2
  subst hs
  exact ⟨hok, hok₂, hget, hagain _ _ hok₂⟩

/-! ## The handlers on valid and invalid requests -/

theorem getVolume_eq_ensure (service : VolumeService) (env : Env) (path mountpoint : String)
    (h : resolveMountpoint env path = some mountpoint) :
    service.getVolume env path = some (service.ensure mountpoint, mountpoint) :=
  getVolume_of_resolve service env path mountpoint h

theorem ensure_deref (service : VolumeService) (mountpoint : String) :
    (service.ensure mountpoint).deref mountpoint = some (service.ledger mountpoint) := by
  unfold VolumeService.ensure VolumeService.ledger VolumeService.deref
  cases hv : service.volumes.get? mountpoint with
  | none => simp [GoMap.get?_set_self]
  | some v => simp [hv]

theorem ensure_get?_ne (service : VolumeService) (mountpoint k : String) (hk : k ≠ mountpoint) :
    (service.ensure mountpoint).volumes.get? k = service.volumes.get? k := by
  unfold VolumeService.ensure
  split
  · exact GoMap.get?_set_ne service.volumes mountpoint k _ hk
  · rfl

theorem ensure_of_present (service : VolumeService) (mountpoint : String) (v : Volume)
    (hv : service.volumes.get? mountpoint = some v) :
    service.ensure mountpoint = service ∧ service.ledger mountpoint = v := by
  simp [VolumeService.ensure, VolumeService.ledger, hv]

theorem store_get?_self (service : VolumeService) (ref : String) (v : Volume) :
    (service.store ref v).volumes.get? ref = some v :=
  GoMap.get?_set_self service.volumes ref v

theorem store_get?_ne (service : VolumeService) (ref k : String) (v : Volume) (hk : k ≠ ref) :
    (service.store ref v).volumes.get? k = service.volumes.get? k :=
  GoMap.get?_set_ne service.volumes ref k v hk

theorem store_of_same (service : VolumeService) (ref : String) (v : Volume)
    (hv : service.volumes.get? ref = some v) : service.store ref v = service := by
  unfold VolumeService.store
  rw [GoMap.set_of_same service.volumes ref v hv]

theorem makeReserveHandler_no_path (service : VolumeService) (env : Env) (r : Request)
    (hp : r.FormValue "path" = "") :
    service.makeReserveHandler env r =
      some { service := service, status := 400,
             response := { Succeeded := false, ErrorMessage := "Param 'path' is required.",
                           Data := none } } := by
  simp [VolumeService.makeReserveHandler, hp, VolumeResponse.zero, StatusBadRequest]

theorem makeReserveHandler_bad_bytes (service : VolumeService) (env : Env) (r : Request)
    (hp : r.FormValue "path" ≠ "")
    (hb : (ParseUint (r.FormValue "bytes")).2 ≠ none ∨ (ParseUint (r.FormValue "bytes")).1 < 1) :
    service.makeReserveHandler env r =
      some { service := service, status := 400,
             response := { Succeeded := false,
                           ErrorMessage := "Param 'bytes' must be an integer greater than zero.",
                           Data := none } } := by
  unfold VolumeService.makeReserveHandler
  simp only [hp, if_false]
  rw [if_pos hb]
  rfl

theorem makeReserveHandler_valid (service : VolumeService) (env : Env) (r : Request)
    (mountpoint : String) (hp : r.FormValue "path" ≠ "")
    (he : (ParseUint (r.FormValue "bytes")).2 = none)
    (hb : 1 ≤ (ParseUint (r.FormValue "bytes")).1)
    (hmp : resolveMountpoint env (r.FormValue "path") = some mountpoint) :
    service.makeReserveHandler env r =
      some { service := (service.ensure mountpoint).store mountpoint
               ((service.ledger mountpoint).Reserve env (r.FormValue "path")
                 (ParseUint (r.FormValue "bytes")).1).1,
             status :=
               match ((service.ledger mountpoint).Reserve env (r.FormValue "path")
                 (ParseUint (r.FormValue "bytes")).1).2 with
               | some _ => 500
               | none => 200,
             response :=
               match ((service.ledger mountpoint).Reserve env (r.FormValue "path")
                 (ParseUint (r.FormValue "bytes")).1).2 with
               | some err =>
                 { Succeeded := false,
                   ErrorMessage := "Could not reserve "
                     ++ toString (ParseUint (r.FormValue "bytes")).1
                     ++ " bytes for file '" ++ r.FormValue "path" ++ "': " ++ err.Error,
                   Data := none }
               | none => { Succeeded := true, ErrorMessage := "", Data := none } } := by
  have hb' : ¬ ((ParseUint (r.FormValue "bytes")).2 ≠ none
      ∨ (ParseUint (r.FormValue "bytes")).1 < 1) := by
    rintro (h | h)
    · exact h he
    · omega
  unfold VolumeService.makeReserveHandler
  simp only [hp, if_false]
  rw [if_neg hb', getVolume_eq_ensure service env _ mountpoint hmp]
  simp only [ensure_deref]
  cases hr : ((service.ledger mountpoint).Reserve env (r.FormValue "path")
      (ParseUint (r.FormValue "bytes")).1).2 with
  | none => simp [hr, VolumeResponse.zero, StatusOK]
  | some err => simp [hr, VolumeResponse.zero, StatusInternalServerError]

theorem makeReleaseHandler_no_path (service : VolumeService) (env : Env) (r : Request)
    (hp : r.FormValue "path" = "") :
    service.makeReleaseHandler env r =
      some { service := service, status := 400,
             response := { Succeeded := false, ErrorMessage := "Param 'path' is required.",
                           Data := none } } := by
  simp [VolumeService.makeReleaseHandler, hp, VolumeResponse.zero, StatusBadRequest]

theorem makeReleaseHandler_valid (service : VolumeService) (env : Env) (r : Request)
    (mountpoint : String) (hp : r.FormValue "path" ≠ "")
    (hmp : resolveMountpoint env (r.FormValue "path") = some mountpoint) :
    service.makeReleaseHandler env r =
      some { service := (service.ensure mountpoint).store mountpoint
               ((service.ledger mountpoint).Release (r.FormValue "path")).1,
             status := 200,
             response := { Succeeded := true, ErrorMessage := "", Data := none } } := by
  unfold VolumeService.makeReleaseHandler
  simp only [hp, if_false]
  rw [getVolume_eq_ensure service env _ mountpoint hmp]
  simp [ensure_deref, VolumeResponse.zero, StatusOK]

theorem makeReportHandler_no_path (service : VolumeService) (env : Env) (r : Request)
    (hp : r.FormValue "path" = "") :
    service.makeReportHandler env r =
      some { service := service, status := 400,
             response := { Succeeded := false, ErrorMessage := "Param 'path' is required.",
                           Data := none } } := by
  simp [VolumeService.makeReportHandler, hp, VolumeResponse.zero, StatusBadRequest]

theorem makeReportHandler_valid (service : VolumeService) (env : Env) (r : Request)
    (mountpoint : String) (hp : r.FormValue "path" ≠ "")
    (hmp : resolveMountpoint env (r.FormValue "path") = some mountpoint) :
    service.makeReportHandler env r =
      some { service := service.ensure mountpoint,
             status := 200,
             response := { Succeeded := true, ErrorMessage := "",
                           Data := some (service.ledger mountpoint).Reservations } } := by
  unfold VolumeService.makeReportHandler
  simp only [hp, if_false]
  rw [getVolume_eq_ensure service env _ mountpoint hmp]
  simp [ensure_deref, VolumeResponse.zero, StatusOK]

theorem ParseUint_empty : (ParseUint "").2 ≠ none := by decide

theorem FormValue_missing (r : Request) (key : String) (h : r.Form.get? key = none) :
    r.FormValue key = "" := by
  simp [Request.FormValue, h]

/-- C4: invalid requests are rejected with status 400 and leave the service as
it was, whatever the environment.  A reserve, release or report request with an
empty `path` is answered with `Succeeded = false`, the message
`Param 'path' is required.` and nil `Data`.  A reserve request with a non-empty
path whose `bytes` value is missing, is not accepted by
`strconv.ParseUint(_, 10, 64)` or is zero is answered with the message
`Param 'bytes' must be an integer greater than zero.`  The service in the reply
is the service before the call. -/
theorem invalid_requests_rejected (service : VolumeService) (env : Env) (r : Request) :
    (r.FormValue "path" = "" →
      service.makeReserveHandler env r = some (pathRequired service) ∧
      service.makeReleaseHandler env r = some (pathRequired service) ∧
      service.makeReportHandler env r = some (pathRequired service)) ∧
    (r.FormValue "path" ≠ "" →
      (r.Form.get? "bytes" = none ∨
        (ParseUint (r.FormValue "bytes")).2 ≠ none ∨
        (ParseUint (r.FormValue "bytes")).1 = 0) →
      service.makeReserveHandler env r = some (bytesRequired service)) ∧
    (pathRequired service).service = service ∧ (pathRequired service).status = 400 ∧
    (pathRequired service).response =
      { Succeeded := false, ErrorMessage := "Param 'path' is required.", Data := none } ∧
    (bytesRequired service).service = service ∧ (bytesRequired service).status = 400 ∧
    (bytesRequired service).response =
      { Succeeded := false,
        ErrorMessage := "Param 'bytes' must be an integer greater than zero.",
        Data := none } := by
  refine ⟨?_, ?_, rfl, rfl, rfl, rfl, rfl, rfl⟩
  · intro hp
    exact ⟨makeReserveHandler_no_path service env r hp,
      makeReleaseHandler_no_path service env r hp,
      makeReportHandler_no_path service env r hp⟩
  · intro hp hb
    apply makeReserveHandler_bad_bytes service env r hp
    rcases hb with h | h | h
    · left
      rw [FormValue_missing r "bytes" h]
      exact ParseUint_empty
    · exact Or.inl h
    · right
      omega

/-- C4 on concrete requests against a registry that holds a reservation: no
path with good bytes, no path with zero bytes, and a path with the bytes `0`,
with the bytes `-5`, with bytes above the 64-bit range, and with no bytes. -/
theorem invalid_requests_rejected_witness :
    (reserveRequest "" "8000").FormValue "path" = "" ∧
    (reserveRequest "/tmp/x" "0").FormValue "path" ≠ "" ∧
    serviceWithReservation.makeReserveHandler (linuxEnv dfRootOnly 100000)
      (reserveRequest "" "8000") = some (pathRequired serviceWithReservation) ∧
    serviceWithReservation.makeReleaseHandler (linuxEnv dfRootOnly 100000)
      (reserveRequest "" "8000") = some (pathRequired serviceWithReservation) ∧
    serviceWithReservation.makeReportHandler (linuxEnv dfRootOnly 100000)
      (reserveRequest "" "8000") = some (pathRequired serviceWithReservation) ∧
    serviceWithReservation.makeReserveHandler (linuxEnv dfRootOnly 100000)
      (reserveRequest "" "0") = some (pathRequired serviceWithReservation) ∧
    serviceWithReservation.makeReserveHandler (linuxEnv dfRootOnly 100000)
      (reserveRequest "/tmp/x" "0") = some (bytesRequired serviceWithReservation) ∧
    serviceWithReservation.makeReserveHandler (linuxEnv dfRootOnly 100000)
      (reserveRequest "/tmp/x" "-5") = some (bytesRequired serviceWithReservation) ∧
    serviceWithReservation.makeReserveHandler (linuxEnv dfRootOnly 100000)
      (reserveRequest "/tmp/x" "18446744073709551616")
      = some (bytesRequired serviceWithReservation) ∧
    serviceWithReservation.makeReserveHandler (linuxEnv dfRootOnly 100000)
      (pathRequest "/tmp/x") = some (bytesRequired serviceWithReservation) :=
  ⟨by decide, by decide,
    ((invalid_requests_rejected serviceWithReservation (linuxEnv dfRootOnly 100000)
      (reserveRequest "" "8000")).1 (by decide)).1,
    ((invalid_requests_rejected serviceWithReservation (linuxEnv dfRootOnly 100000)
      (reserveRequest "" "8000")).1 (by decide)).2.1,
    ((invalid_requests_rejected serviceWithReservation (linuxEnv dfRootOnly 100000)
      (reserveRequest "" "8000")).1 (by decide)).2.2,
    ((invalid_requests_rejected serviceWithReservation (linuxEnv dfRootOnly 100000)
      (reserveRequest "" "0")).1 (by decide)).1,
    (invalid_requests_rejected serviceWithReservation (linuxEnv dfRootOnly 100000)
      (reserveRequest "/tmp/x" "0")).2.1 (by decide) (Or.inr (Or.inr (by decide))),
    (invalid_requests_rejected serviceWithReservation (linuxEnv dfRootOnly 100000)
      (reserveRequest "/tmp/x" "-5")).2.1 (by decide) (Or.inr (Or.inl (by decide))),
    (invalid_requests_rejected serviceWithReservation (linuxEnv dfRootOnly 100000)
      (reserveRequest "/tmp/x" "18446744073709551616")).2.1 (by decide)
      (Or.inr (Or.inl (by decide))),
    (invalid_requests_rejected serviceWithReservation (linuxEnv dfRootOnly 100000)
      (pathRequest "/tmp/x")).2.1 (by decide) (Or.inl (by decide))⟩

/-! ## Release and report -/

theorem Release_Release (v : Volume) (path : String) :
    ((v.Release path).1.Release path).1 = (v.Release path).1 := by
  unfold Volume.Release
  by_cases hp : path = ""
  · simp [hp]
  · simp [hp, GoMap.delete_delete]

/-- C5: release never fails and is idempotent.  For every registry, every
environment and every request with a non-empty `path`, whether or not the path
holds a reservation, the release handler answers status 200 with
`Succeeded = true` and an empty `ErrorMessage`; the ledgers of all mount points
other than the one the path resolves to are as before; a second release of the
same path gets the same answer, and when the path still resolves to the same
mount point it changes nothing. -/
theorem release_idempotent (service : VolumeService) (env : Env) (r : Request)
    (hp : r.FormValue "path" ≠ "") :
    ∃ mountpoint reply,
      resolveMountpoint env (r.FormValue "path") = some mountpoint ∧
      service.makeReleaseHandler env r = some reply ∧
      reply.status = 200 ∧
      reply.response = { Succeeded := true, ErrorMessage := "", Data := none } ∧
      (∀ k, k ≠ mountpoint → reply.service.volumes.get? k = service.volumes.get? k) ∧
      (∀ env₂, ∃ reply₂, reply.service.makeReleaseHandler env₂ r = some reply₂ ∧
        reply₂.status = 200 ∧ reply₂.response = reply.response) ∧
      (∀ env₂, resolveMountpoint env₂ (r.FormValue "path") = some mountpoint →
        reply.service.makeReleaseHandler env₂ r = some reply) := by
  obtain ⟨mp, hmp⟩ := resolveMountpoint_isSome env (r.FormValue "path")
  refine ⟨mp, _, hmp, makeReleaseHandler_valid service env r mp hp hmp, rfl, rfl, ?_, ?_, ?_⟩
  · intro k hk
    show ((service.ensure mp).store mp _).volumes.get? k = _
    rw [store_get?_ne _ mp k _ hk, ensure_get?_ne service mp k hk]
  · intro env₂
    obtain ⟨mp₂, hmp₂⟩ := resolveMountpoint_isSome env₂ (r.FormValue "path")
    exact ⟨_, makeReleaseHandler_valid _ env₂ r mp₂ hp hmp₂, rfl, rfl⟩
  · intro env₂ hmp₂
    rw [makeReleaseHandler_valid _ env₂ r mp hp hmp₂]
    have hget := store_get?_self (service.ensure mp) mp
      ((service.ledger mp).Release (r.FormValue "path")).1
    obtain ⟨he, hl⟩ := ensure_of_present _ mp _ hget
    rw [he, hl, Release_Release, store_of_same _ mp _ hget]

/-- C5 on a registry in which `/tmp/some_file` holds a reservation. -/
theorem release_idempotent_witness :
    ∃ mountpoint reply,
      resolveMountpoint (linuxEnv dfRootOnly 100000)
        ((pathRequest "/tmp/some_file").FormValue "path") = some mountpoint ∧
      serviceWithReservation.makeReleaseHandler (linuxEnv dfRootOnly 100000)
        (pathRequest "/tmp/some_file") = some reply ∧
      reply.status = 200 ∧
      reply.response = { Succeeded := true, ErrorMessage := "", Data := none } ∧
      (∀ k, k ≠ mountpoint →
        reply.service.volumes.get? k = serviceWithReservation.volumes.get? k) ∧
      (∀ env₂, ∃ reply₂,
        reply.service.makeReleaseHandler env₂ (pathRequest "/tmp/some_file") = some reply₂ ∧
        reply₂.status = 200 ∧ reply₂.response = reply.response) ∧
      (∀ env₂,
        resolveMountpoint env₂ ((pathRequest "/tmp/some_file").FormValue "path")
          = some mountpoint →
        reply.service.makeReleaseHandler env₂ (pathRequest "/tmp/some_file") = some reply) :=
  release_idempotent serviceWithReservation (linuxEnv dfRootOnly 100000)
    (pathRequest "/tmp/some_file") (by decide)

theorem Reserve_of_ok (env : Env) (v : Volume) (path : String) (bytes : Nat)
    (h : (v.Reserve env path bytes).2 = none) :
    (v.Reserve env path bytes).1 = { v with claimed := v.claimed.set path bytes } := by
  unfold Volume.Reserve at h ⊢
  by_cases h₀ : path = "" ∨ bytes = 0
  · simp [h₀] at h
  · simp only [h₀, if_false] at h ⊢
    cases hf : env.freeSpace v.mountPoint with
    | none => simp [hf] at h
    | some free =>
      simp only [hf] at h ⊢
      by_cases hb : bytes ≤ free - v.reservedTotal
      · simp [hb]
      · simp [hb] at h

theorem Reserve_of_error (env : Env) (v : Volume) (path : String) (bytes : Nat)
    (err : VolumeError) (h : (v.Reserve env path bytes).2 = some err) :
    (v.Reserve env path bytes).1 = v := by
  unfold Volume.Reserve at h ⊢
  by_cases h₀ : path = "" ∨ bytes = 0
  · simp [h₀]
  · simp only [h₀, if_false] at h ⊢
    cases hf : env.freeSpace v.mountPoint with
    | none => simp
    | some free =>
      simp only [hf] at h ⊢
      by_cases hb : bytes ≤ free - v.reservedTotal
      · simp [hb] at h
      · simp [hb]

/-- A reserve request answered with status 200 has a path, and the ledger of
its mount point afterwards is the ledger before with the reservation set. -/
theorem makeReserveHandler_ok (service : VolumeService) (env : Env) (r : Request)
    (mountpoint : String) (reply : Reply)
    (hmp : resolveMountpoint env (r.FormValue "path") = some mountpoint)
    (h : service.makeReserveHandler env r = some reply) (hs : reply.status = 200) :
    r.FormValue "path" ≠ "" ∧
    reply.service.volumes.get? mountpoint =
      some { service.ledger mountpoint with
             claimed := (service.ledger mountpoint).claimed.set (r.FormValue "path")
               (ParseUint (r.FormValue "bytes")).1 } := by
  by_cases hp : r.FormValue "path" = ""
  · rw [makeReserveHandler_no_path service env r hp] at h
    cases h
    simp at hs
  · by_cases hb : (ParseUint (r.FormValue "bytes")).2 ≠ none
        ∨ (ParseUint (r.FormValue "bytes")).1 < 1
    · rw [makeReserveHandler_bad_bytes service env r hp hb] at h
      cases h
      simp at hs
    · have he : (ParseUint (r.FormValue "bytes")).2 = none := by
        by_contra hne
        exact hb (Or.inl hne)
      have hb' : 1 ≤ (ParseUint (r.FormValue "bytes")).1 := by
        by_contra hlt
        exact hb (Or.inr (by omega))
      rw [makeReserveHandler_valid service env r mountpoint hp he hb' hmp] at h
      cases h
      refine ⟨hp, ?_⟩
      cases hr : ((service.ledger mountpoint).Reserve env (r.FormValue "path")
          (ParseUint (r.FormValue "bytes")).1).2 with
      | some err => simp [hr] at hs
      | none =>
        show ((service.ensure mountpoint).store mountpoint _).volumes.get? mountpoint = _
        rw [store_get?_self, Reserve_of_ok env _ _ _ hr]

/-- C6: the report handler answers a request with a non-empty `path` with status
200, `Succeeded = true`, an empty `ErrorMessage` and, as `Data`, the reservations
of the ledger that `getVolume` returns for the path, the ledger stored under the
path's resolved mount point.  So after two reserve requests answered with status
200 for paths that resolve to the same mount point as the reported path, the
report holds both reservations. -/
theorem report_is_ledger_snapshot (service : VolumeService) (env : Env) (r : Request)
    (hp : r.FormValue "path" ≠ "") :
    (∃ mountpoint service' v,
      resolveMountpoint env (r.FormValue "path") = some mountpoint ∧
      service.getVolume env (r.FormValue "path") = some (service', mountpoint) ∧
      service'.deref mountpoint = some v ∧
      service.makeReportHandler env r =
        some { service := service', status := 200,
               response := { Succeeded := true, ErrorMessage := "",
                             Data := some v.Reservations } }) ∧
    (∀ (service₀ : VolumeService) (env₁ env₂ : Env) (r₁ r₂ : Request)
        (reply₁ reply₂ : Reply) (mountpoint : String),
      resolveMountpoint env₁ (r₁.FormValue "path") = some mountpoint →
      resolveMountpoint env₂ (r₂.FormValue "path") = some mountpoint →
      resolveMountpoint env (r.FormValue "path") = some mountpoint →
      service₀.makeReserveHandler env₁ r₁ = some reply₁ → reply₁.status = 200 →
      reply₁.service.makeReserveHandler env₂ r₂ = some reply₂ → reply₂.status = 200 →
      service = reply₂.service →
      ∃ reply data,
        service.makeReportHandler env r = some reply ∧
        reply.status = 200 ∧
        reply.response.Data = some data ∧
        data.get? (r₂.FormValue "path") = some (ParseUint (r₂.FormValue "bytes")).1 ∧
        (r₁.FormValue "path" ≠ r₂.FormValue "path" →
          data.get? (r₁.FormValue "path") = some (ParseUint (r₁.FormValue "bytes")).1)) := by
  constructor
  · obtain ⟨mp, hmp⟩ := resolveMountpoint_isSome env (r.FormValue "path")
    exact ⟨mp, service.ensure mp, service.ledger mp, hmp,
      getVolume_eq_ensure service env _ mp hmp, ensure_deref service mp,
      makeReportHandler_valid service env r mp hp hmp⟩
  · intro service₀ env₁ env₂ r₁ r₂ reply₁ reply₂ mp hmp₁ hmp₂ hmp h₁ hs₁ h₂ hs₂ hsvc
    subst hsvc
    obtain ⟨_, hv₁⟩ := makeReserveHandler_ok service₀ env₁ r₁ mp reply₁ hmp₁ h₁ hs₁
    obtain ⟨_, hv₂⟩ := makeReserveHandler_ok reply₁.service env₂ r₂ mp reply₂ hmp₂ h₂ hs₂
    rw [(ensure_of_present reply₁.service mp _ hv₁).2] at hv₂
    refine ⟨_, _, makeReportHandler_valid reply₂.service env r mp hp hmp, rfl, rfl, ?_, ?_⟩
    · rw [(ensure_of_present reply₂.service mp _ hv₂).2]
      simp [Volume.Reservations, GoMap.get?_set_self]
    · intro hne
      rw [(ensure_of_present reply₂.service mp _ hv₂).2]
      simp [Volume.Reservations, GoMap.get?_set_ne _ _ _ _ hne, GoMap.get?_set_self]

/-- C6 on the scenario of `TestReport`: after reserving 8000 bytes for
`/tmp/some_file` and 24000 bytes for `/tmp/some_other_file`, the report for `/`
holds both. -/
theorem report_is_ledger_snapshot_witness :
    (pathRequest "/").FormValue "path" ≠ "" ∧
    ∃ reply data,
      serviceWithTwoReservations.makeReportHandler (linuxEnv dfRootOnly 100000)
        (pathRequest "/") = some reply ∧
      reply.status = 200 ∧
      reply.response.Data = some data ∧
      data.get? "/tmp/some_other_file" = some 24000 ∧
      ("/tmp/some_file" ≠ "/tmp/some_other_file" →
        data.get? "/tmp/some_file" = some 8000) :=
  ⟨by decide,
    (report_is_ledger_snapshot serviceWithTwoReservations (linuxEnv dfRootOnly 100000)
      (pathRequest "/") (by decide)).2
      (NewVolumeService "127.0.0.1" 8188)
      (linuxEnv dfRootOnly 100000) (linuxEnv dfRootOnly 100000)
      (reserveRequest "/tmp/some_file" "8000") (reserveRequest "/tmp/some_other_file" "24000")
      { service := serviceWithReservation, status := 200,
        response := { Succeeded := true, ErrorMessage := "", Data := none } }
      { service := serviceWithTwoReservations, status := 200,
        response := { Succeeded := true, ErrorMessage := "", Data := none } }
      "/" (by rfl) (by rfl) (by rfl) (by rfl) (by rfl) (by rfl) (by rfl) (by rfl)⟩

/-! ## A failing probe -/

theorem GetMountPointFromPath_of_probe_failure (env : Env) (path : String)
    (h : env.goos = "windows" ∨ ∃ err, env.df = .error err) :
    ∃ err, GetMountPointFromPath env path = some (.error err) := by
  unfold GetMountPointFromPath
  by_cases hw : env.goos = "windows"
  · exact ⟨GoError.errorf "windows is not supported :(", by simp [hw]⟩
  · rcases h with h | ⟨err, h⟩
    · exact absurd h hw
    · exact ⟨err, by simp [hw, h]⟩

theorem resolveMountpoint_of_probe_failure (env : Env) (path : String)
    (h : env.goos = "windows" ∨ ∃ err, env.df = .error err) :
    resolveMountpoint env path = some "/" := by
  obtain ⟨err, herr⟩ := GetMountPointFromPath_of_probe_failure env path h
  simp [resolveMountpoint, herr]

/-- C7: a failing mount-point probe is not fatal.  When the platform is windows
or `df` cannot be run, `GetMountPointFromPath` returns an error, `getVolume`
substitutes `/` and returns the ledger keyed `/`, which it creates if the
registry has none, and the release, report and reserve handlers work on that
ledger: release and report answer 200, and reserve answers 200 exactly when the
root ledger accepts the reservation. -/
theorem probe_failure_uses_root (service : VolumeService) (env : Env) (r : Request)
    (h : env.goos = "windows" ∨ ∃ err, env.df = .error err) :
    (∃ err, GetMountPointFromPath env (r.FormValue "path") = some (.error err)) ∧
    (∃ service' v,
      service.getVolume env (r.FormValue "path") = some (service', "/") ∧
      service'.deref "/" = some v ∧
      (∀ w, service.volumes.get? "/" = some w → v = w ∧ service' = service) ∧
      (service.volumes.get? "/" = none →
        v = NewVolume "/" ∧
        service' = { service with volumes := service.volumes ++ [("/", NewVolume "/")] }) ∧
      (r.FormValue "path" ≠ "" →
        service.makeReleaseHandler env r =
          some { service := service'.store "/" (v.Release (r.FormValue "path")).1,
                 status := 200,
                 response := { Succeeded := true, ErrorMessage := "", Data := none } } ∧
        service.makeReportHandler env r =
          some { service := service', status := 200,
                 response := { Succeeded := true, ErrorMessage := "",
                               Data := some v.Reservations } } ∧
        ((ParseUint (r.FormValue "bytes")).2 = none →
          1 ≤ (ParseUint (r.FormValue "bytes")).1 →
          ∃ reply, service.makeReserveHandler env r = some reply ∧
            reply.service = service'.store "/"
              (v.Reserve env (r.FormValue "path") (ParseUint (r.FormValue "bytes")).1).1 ∧
            (reply.status = 200 ↔
              (v.Reserve env (r.FormValue "path")
                (ParseUint (r.FormValue "bytes")).1).2 = none)))) := by
  have hmp := resolveMountpoint_of_probe_failure env (r.FormValue "path") h
  refine ⟨GetMountPointFromPath_of_probe_failure env _ h, service.ensure "/",
    service.ledger "/", getVolume_eq_ensure service env _ "/" hmp, ensure_deref service "/",
    ?_, ?_, ?_⟩
  · intro w hw
    obtain ⟨he, hl⟩ := ensure_of_present service "/" w hw
    exact ⟨hl, he⟩
  · intro hn
    constructor
    · simp [VolumeService.ledger, hn]
    · simp [VolumeService.ensure, hn, GoMap.set_of_absent]
  · intro hp
    refine ⟨makeReleaseHandler_valid service env r "/" hp hmp,
      makeReportHandler_valid service env r "/" hp hmp, ?_⟩
    intro he hb
    refine ⟨_, makeReserveHandler_valid service env r "/" hp he hb hmp, rfl, ?_⟩
    cases hr : ((service.ledger "/").Reserve env (r.FormValue "path")
        (ParseUint (r.FormValue "bytes")).1).2 with
    | none => simp
    | some err => simp

/-- C7 on a Windows host with an empty registry and a reserve request. -/
theorem probe_failure_uses_root_witness :
    (windowsEnv.goos = "windows" ∨ ∃ err, windowsEnv.df = .error err) ∧
    (NewVolumeService "127.0.0.1" 8188).getVolume windowsEnv "C:/tmp/x"
      = some ({ host := "127.0.0.1", port := 8188, volumes := [("/", NewVolume "/")] }, "/") ∧
    ∃ service' v,
      (NewVolumeService "127.0.0.1" 8188).getVolume windowsEnv
        ((reserveRequest "C:/tmp/x" "800").FormValue "path") = some (service', "/") ∧
      service'.deref "/" = some v :=
  ⟨Or.inl (by decide), by rfl,
    match (probe_failure_uses_root (NewVolumeService "127.0.0.1" 8188) windowsEnv
      (reserveRequest "C:/tmp/x" "800") (Or.inl (by decide))).2 with
    | ⟨service', v, hget, hderef, _⟩ => ⟨service', v, hget, hderef⟩⟩

/-! ## The status of a reserve request -/

/-- C8, as stated, fails: a well-formed reserve request that the ledger rejects
for insufficient space (8000 bytes asked, 1000 free, nothing reserved) is
answered with status 500, so no reply to it has a client-error status. -/
theorem reserve_insufficient_space_status :
    (reserveRequest "/tmp/some_file" "8000").FormValue "path" = "/tmp/some_file" ∧
    ParseUint ((reserveRequest "/tmp/some_file" "8000").FormValue "bytes") = (8000, none) ∧
    resolveMountpoint (linuxEnv dfRootOnly 1000) "/tmp/some_file" = some "/" ∧
    ((NewVolumeService "127.0.0.1" 8188).ledger "/").Reserve (linuxEnv dfRootOnly 1000)
      "/tmp/some_file" 8000 = (NewVolume "/", some VolumeError.InsufficientSpace) ∧
    ((NewVolumeService "127.0.0.1" 8188).makeReserveHandler (linuxEnv dfRootOnly 1000)
      (reserveRequest "/tmp/some_file" "8000")).map Reply.status = some 500 ∧
    ¬ ∃ reply,
      (NewVolumeService "127.0.0.1" 8188).makeReserveHandler (linuxEnv dfRootOnly 1000)
        (reserveRequest "/tmp/some_file" "8000") = some reply ∧
      400 ≤ reply.status ∧ reply.status < 500 := by
  have hmp : resolveMountpoint (linuxEnv dfRootOnly 1000)
      ((reserveRequest "/tmp/some_file" "8000").FormValue "path") = some "/" := by rfl
  have hreply := makeReserveHandler_valid (NewVolumeService "127.0.0.1" 8188)
    (linuxEnv dfRootOnly 1000) (reserveRequest "/tmp/some_file" "8000") "/"
    (by decide) (by decide) (by decide) hmp
  refine ⟨by decide, by decide, by rfl, by decide, ?_, ?_⟩
  · rw [hreply]
    decide
  · rintro ⟨reply, h, h400, h500⟩
    rw [hreply] at h
    cases h
    revert h500
    decide

/-- C8, amended: for every well-formed reserve request (non-empty path, bytes at
least 1) the status is 200 when the ledger accepts the reservation and 500 when
the ledger returns an error of any kind: a failed free-space probe and a
rejection for insufficient space are both answered with 500, and in both the
ledgers are left as they were.  Status 400 is not used for such a request. -/
theorem reserve_status_follows_ledger (service : VolumeService) (env : Env) (r : Request)
    (hp : r.FormValue "path" ≠ "")
    (he : (ParseUint (r.FormValue "bytes")).2 = none)
    (hb : 1 ≤ (ParseUint (r.FormValue "bytes")).1) :
    ∃ mountpoint reply,
      resolveMountpoint env (r.FormValue "path") = some mountpoint ∧
      service.makeReserveHandler env r = some reply ∧
      reply.status ≠ 400 ∧
      (((service.ledger mountpoint).Reserve env (r.FormValue "path")
          (ParseUint (r.FormValue "bytes")).1).2 = none →
        reply.status = 200 ∧ reply.response.Succeeded = true) ∧
      (∀ err, ((service.ledger mountpoint).Reserve env (r.FormValue "path")
          (ParseUint (r.FormValue "bytes")).1).2 = some err →
        reply.status = 500 ∧ reply.response.Succeeded = false ∧
        reply.service = service.ensure mountpoint) ∧
      (env.freeSpace (service.ledger mountpoint).mountPoint = none → reply.status = 500) ∧
      (∀ free, env.freeSpace (service.ledger mountpoint).mountPoint = some free →
        free - (service.ledger mountpoint).reservedTotal < (ParseUint (r.FormValue "bytes")).1 →
        reply.status = 500) ∧
      (∀ free, env.freeSpace (service.ledger mountpoint).mountPoint = some free →
        (ParseUint (r.FormValue "bytes")).1 ≤ free - (service.ledger mountpoint).reservedTotal →
        reply.status = 200) := by
  obtain ⟨mp, hmp⟩ := resolveMountpoint_isSome env (r.FormValue "path")
  have hz : ¬ (r.FormValue "path" = "" ∨ (ParseUint (r.FormValue "bytes")).1 = 0) := by
    rintro (h | h)
    · exact hp h
    · omega
  refine ⟨mp, _, hmp, makeReserveHandler_valid service env r mp hp he hb hmp,
    ?_, ?_, ?_, ?_, ?_, ?_⟩
  · cases hr : ((service.ledger mp).Reserve env (r.FormValue "path")
        (ParseUint (r.FormValue "bytes")).1).2 <;> simp
  · intro hr
    simp [hr]
  · intro err hr
    refine ⟨by simp [hr], by simp [hr], ?_⟩
    show (service.ensure mp).store mp _ = _
    rw [Reserve_of_error env _ _ _ err hr]
    exact store_of_same _ mp _ (ensure_deref service mp)
  · intro hf
    simp [Volume.Reserve, hz, hf]
  · intro free hf hlt
    have : ¬ (ParseUint (r.FormValue "bytes")).1 ≤ free - (service.ledger mp).reservedTotal := by
      omega
    simp [Volume.Reserve, hz, hf, this]
  · intro free hf hle
    simp [Volume.Reserve, hz, hf, hle]

/-- C8, amended, on the request of the counterexample: 8000 bytes against 1000
free bytes. -/
theorem reserve_status_follows_ledger_witness :
    (reserveRequest "/tmp/some_file" "8000").FormValue "path" ≠ "" ∧
    (ParseUint ((reserveRequest "/tmp/some_file" "8000").FormValue "bytes")).2 = none ∧
    1 ≤ (ParseUint ((reserveRequest "/tmp/some_file" "8000").FormValue "bytes")).1 ∧
    ∃ mountpoint reply,
      resolveMountpoint (linuxEnv dfRootOnly 1000)
        ((reserveRequest "/tmp/some_file" "8000").FormValue "path") = some mountpoint ∧
      (NewVolumeService "127.0.0.1" 8188).makeReserveHandler (linuxEnv dfRootOnly 1000)
        (reserveRequest "/tmp/some_file" "8000") = some reply ∧
      reply.status ≠ 400 :=
  ⟨by decide, by decide, by decide,
    match reserve_status_follows_ledger (NewVolumeService "127.0.0.1" 8188)
      (linuxEnv dfRootOnly 1000) (reserveRequest "/tmp/some_file" "8000")
      (by decide) (by decide) (by decide) with
    | ⟨mountpoint, reply, hmp, hreply, hstatus, _⟩ => ⟨mountpoint, reply, hmp, hreply, hstatus⟩⟩

/-! ## The client -/

/-- C9: the client checks its arguments before it sends anything.  `Reserve`
with an empty path returns `false` and an error for every byte count, `Reserve`
with a non-empty path and zero bytes returns `false` and an error, `Release`
with an empty path returns an error, `Report` with an empty path returns a nil
map and an error; in each case no HTTP request is sent, whatever the network
would answer. -/
theorem client_validates_arguments (client : VolumeClient) (net : Network) (path : String)
    (bytes : Nat) :
    client.Reserve net "" bytes
      = ((false, some (GoError.errorf "path cannot be empty")), []) ∧
    (path ≠ "" →
      client.Reserve net path 0
        = ((false, some (GoError.errorf "you must request at least one byte of storage")),
           [])) ∧
    client.Release net "" = (some (GoError.errorf "path cannot be empty"), []) ∧
    client.Report net "" = ((none, some (GoError.errorf "path cannot be empty")), []) := by
  refine ⟨by simp [VolumeClient.Reserve], ?_, by simp [VolumeClient.Release],
    by simp [VolumeClient.Report]⟩
  intro hp
  simp [VolumeClient.Reserve, hp]

/-- C9 on the calls of the client tests, against a network on which every
request would succeed. -/
theorem client_validates_arguments_witness :
    "/tmp/some_file" ≠ "" ∧
    (NewVolumeClient "http://127.0.0.1:8818").Reserve okNetwork "" 800
      = ((false, some (GoError.errorf "path cannot be empty")), []) ∧
    (NewVolumeClient "http://127.0.0.1:8818").Reserve okNetwork "/tmp/some_file" 0
      = ((false, some (GoError.errorf "you must request at least one byte of storage")),
         []) ∧
    (NewVolumeClient "http://127.0.0.1:8818").Release okNetwork ""
      = (some (GoError.errorf "path cannot be empty"), []) ∧
    (NewVolumeClient "http://127.0.0.1:8818").Report okNetwork ""
      = ((none, some (GoError.errorf "path cannot be empty")), []) :=
  ⟨by decide,
    (client_validates_arguments (NewVolumeClient "http://127.0.0.1:8818") okNetwork
      "/tmp/some_file" 800).1,
    (client_validates_arguments (NewVolumeClient "http://127.0.0.1:8818") okNetwork
      "/tmp/some_file" 800).2.1 (by decide),
    (client_validates_arguments (NewVolumeClient "http://127.0.0.1:8818") okNetwork
      "/tmp/some_file" 800).2.2.1,
    (client_validates_arguments (NewVolumeClient "http://127.0.0.1:8818") okNetwork
      "/tmp/some_file" 800).2.2.2⟩

/-! ## What GetMountPointFromPath computes -/

theorem len_pos_iff (s : String) : len s > 0 ↔ s ≠ "" := by
  obtain ⟨cs⟩ := s
  cases cs with
  | nil =>
    constructor
    · intro h
      exact absurd h (by decide)
    · intro h
      exact absurd rfl h
  | cons c cs =>
    constructor
    · intro _ h
      have := congrArg String.data h
      simp at this
    · intro _
      show String.utf8ByteSize.go cs + c.utf8Size > 0
      have := Char.utf8Size_pos c
      omega

theorem lastWord_eq_lastField (line : String) :
    (Split line ' ')[(Split line ' ').length - 1]? = some (lastField line) := by
  obtain ⟨w, hw⟩ := lastWord_isSome (Split line ' ') (Split_ne_nil line ' ')
  rw [hw]
  simp [lastField, List.getLast?_eq_getElem?, hw]

theorem loop_test_eq (path mountpoint : String) :
    (HasPrefix path mountpoint && decide (len mountpoint > 0))
      = (decide (mountpoint ≠ "") && HasPrefix path mountpoint) := by
  rw [Bool.and_comm]
  congr 1
  exact decide_eq_decide.mpr (len_pos_iff mountpoint)

/-- The loop, past the header line, keeps the last field that is a non-empty
prefix of the path, and the initial value without one. -/
theorem scanLines_eq_last (path : String) (lines : List String) :
    ∀ (i : Nat) (m : String), 0 < i →
      scanLines path 0 i lines m =
        some (match ((lines.map lastField).filter
            fun field => decide (field ≠ "") && HasPrefix path field).getLast? with
          | some field => field
          | none => m) := by
  induction lines with
  | nil =>
    intro i m _
    simp [scanLines]
  | cons line rest ih =>
    intro i m hi
    unfold scanLines
    simp only [gt_iff_lt, hi, if_true, lastWord_eq_lastField]
    have htest := loop_test_eq path (lastField line)
    simp only [gt_iff_lt] at htest
    rw [htest]
    by_cases hp : (decide (lastField line ≠ "") && HasPrefix path (lastField line)) = true
    · have hf := @List.filter_cons_of_pos String
        (fun field => decide (field ≠ "") && HasPrefix path field) (lastField line)
        (rest.map lastField) hp
      rw [if_pos hp, ih (i + 1) (lastField line) (Nat.succ_pos i), List.map_cons, hf,
        List.getLast?_cons]
      cases (List.filter (fun field => decide (field ≠ "") && HasPrefix path field)
        (List.map lastField rest)).getLast? <;> rfl
    · have hf := @List.filter_cons_of_neg String
        (fun field => decide (field ≠ "") && HasPrefix path field) (lastField line)
        (rest.map lastField) hp
      rw [if_neg hp, ih (i + 1) m (Nat.succ_pos i), List.map_cons, hf]

theorem GetMountPointFromPath_eq_lastMatchingField (env : Env) (path out : String)
    (hos : env.goos ≠ "windows") (hdf : env.df = .ok out) :
    GetMountPointFromPath env path = some (.ok (lastMatchingField path out)) := by
  unfold GetMountPointFromPath lastMatchingField
  simp only [hos, if_false, hdf]
  cases hl : Split out '\n' with
  | nil => exact absurd hl (Split_ne_nil out '\n')
  | cons header rest =>
    have h₀ : scanLines path 0 0 (header :: rest) "" = scanLines path 0 1 rest "" := by
      simp [scanLines]
    rw [h₀, scanLines_eq_last path rest 1 "" Nat.one_pos]
    rfl

theorem splitChars_header (sep : Char) (header rest : List Char) (h : sep ∉ header) :
    splitChars sep (header ++ sep :: rest) = header :: splitChars sep rest := by
  induction header with
  | nil => simp [splitChars]
  | cons c cs ih =>
    have hc : c ≠ sep := fun hc => h (by simp [hc])
    have hcs : sep ∉ cs := fun hcs => h (List.mem_cons_of_mem c hcs)
    show splitChars sep (c :: (cs ++ sep :: rest)) = _
    simp [splitChars, hc, ih hcs]

theorem Split_header (header body : String) (h : '\n' ∉ header.data) :
    Split (header ++ "\n" ++ body) '\n' = header :: Split body '\n' := by
  have hd : (header ++ "\n" ++ body).data = header.data ++ '\n' :: body.data := by
    simp [String.data_append]
  unfold Split
  rw [hd, splitChars_header '\n' header.data body.data h]
  rfl

theorem lastMatchingField_of_tail (path out out' : String)
    (h : (Split out' '\n').tail = (Split out '\n').tail) :
    lastMatchingField path out' = lastMatchingField path out := by
  unfold lastMatchingField
  rw [h]

theorem lastMatchingField_empty_or_match (path out : String) :
    lastMatchingField path out = "" ∨
      (lastMatchingField path out ≠ "" ∧
        HasPrefix path (lastMatchingField path out) = true) := by
  unfold lastMatchingField
  cases hl : (((Split out '\n').tail.map lastField).filter
      fun field => decide (field ≠ "") && HasPrefix path field).getLast? with
  | none => exact Or.inl rfl
  | some field =>
    have hmem := List.mem_of_getLast?_eq_some hl
    rw [List.mem_filter] at hmem
    have hp := hmem.2
    simp only [Bool.and_eq_true, decide_eq_true_eq] at hp
    exact Or.inr hp

/-- C12: on a platform other than windows and with `df` succeeding,
`GetMountPointFromPath` returns, with a nil error, the last space-separated field
of the last line after the first line whose last field is a non-empty prefix of
the path, and the empty string without such a line.  So the result is empty or
a non-empty prefix of the path; it is the same for two outputs that differ in
the first line only; and the access `words[len(words)-1]` is in bounds for
every line, the empty line included. -/
theorem GetMountPointFromPath_is_last_matching_field (env : Env) (path out : String)
    (hos : env.goos ≠ "windows") (hdf : env.df = .ok out) :
    GetMountPointFromPath env path = some (.ok (lastMatchingField path out)) ∧
    (lastMatchingField path out = "" ∨
      (lastMatchingField path out ≠ "" ∧
        HasPrefix path (lastMatchingField path out) = true)) ∧
    (∀ (env' : Env) (out' : String), env'.goos ≠ "windows" → env'.df = .ok out' →
      (Split out' '\n').tail = (Split out '\n').tail →
      GetMountPointFromPath env' path = GetMountPointFromPath env path) ∧
    (∀ (env' : Env) (header header' body : String),
      '\n' ∉ header.data → '\n' ∉ header'.data →
      out = header ++ "\n" ++ body →
      env'.goos ≠ "windows" → env'.df = .ok (header' ++ "\n" ++ body) →
      GetMountPointFromPath env' path = GetMountPointFromPath env path) ∧
    (∀ line : String, ∃ field,
      (Split line ' ')[(Split line ' ').length - 1]? = some field) ∧
    (Split "" ' ')[(Split "" ' ').length - 1]? = some "" := by
  have hres := GetMountPointFromPath_eq_lastMatchingField env path out hos hdf
  refine ⟨hres, lastMatchingField_empty_or_match path out, ?_, ?_,
    fun line => ⟨lastField line, lastWord_eq_lastField line⟩, by decide⟩
  · intro env' out' hos' hdf' htail
    rw [hres, GetMountPointFromPath_eq_lastMatchingField env' path out' hos' hdf',
      lastMatchingField_of_tail path out out' htail]
  · intro env' header header' body hh hh' hout hos' hdf'
    rw [hres, GetMountPointFromPath_eq_lastMatchingField env' path _ hos' hdf']
    have htail : (Split (header' ++ "\n" ++ body) '\n').tail = (Split out '\n').tail := by
      rw [hout, Split_header header body hh, Split_header header' body hh']
      rfl
    rw [lastMatchingField_of_tail path out _ htail]

/-- C12 on the two orders of `/` and `/mnt/data`: the result is the mount point
listed last. -/
theorem GetMountPointFromPath_is_last_matching_field_witness :
    (linuxEnv dfDataBeforeRoot 1000).goos ≠ "windows" ∧
    (linuxEnv dfDataBeforeRoot 1000).df = .ok dfDataBeforeRoot ∧
    GetMountPointFromPath (linuxEnv dfDataBeforeRoot 1000) "/mnt/data/file.txt"
      = some (.ok (lastMatchingField "/mnt/data/file.txt" dfDataBeforeRoot)) ∧
    lastMatchingField "/mnt/data/file.txt" dfDataBeforeRoot = "/" ∧
    lastMatchingField "/mnt/data/file.txt" dfRootBeforeData = "/mnt/data" ∧
    lastMatchingField "tmp/x" dfRootOnly = "" :=
  ⟨by decide, rfl,
    (GetMountPointFromPath_is_last_matching_field (linuxEnv dfDataBeforeRoot 1000)
      "/mnt/data/file.txt" dfDataBeforeRoot (by decide) rfl).1,
    by decide, by decide, by decide⟩

/-! ## Every reply is a definite outcome -/

theorem reserve_error_message_ne_empty (bytes : Nat) (path text : String) :
    "Could not reserve " ++ toString bytes ++ " bytes for file '" ++ path ++ "': " ++ text
      ≠ "" := by
  intro h
  have hd := congrArg String.data h
  simp only [String.data_append, List.append_eq_nil, List.append_assoc] at hd
  exact absurd hd.1 (by decide)

theorem makeReserveHandler_definite (service : VolumeService) (env : Env) (r : Request) :
    ∃ reply, service.makeReserveHandler env r = some reply ∧ reply.definite := by
  by_cases hp : r.FormValue "path" = ""
  · exact ⟨_, makeReserveHandler_no_path service env r hp, by simp [Reply.definite]⟩
  · by_cases hb : (ParseUint (r.FormValue "bytes")).2 ≠ none
        ∨ (ParseUint (r.FormValue "bytes")).1 < 1
    · exact ⟨_, makeReserveHandler_bad_bytes service env r hp hb, by simp [Reply.definite]⟩
    · have he : (ParseUint (r.FormValue "bytes")).2 = none := by
        by_contra hne
        exact hb (Or.inl hne)
      have hb' : 1 ≤ (ParseUint (r.FormValue "bytes")).1 := by
        by_contra hlt
        exact hb (Or.inr (by omega))
      obtain ⟨mp, hmp⟩ := resolveMountpoint_isSome env (r.FormValue "path")
      refine ⟨_, makeReserveHandler_valid service env r mp hp he hb' hmp, ?_⟩
      cases hr : ((service.ledger mp).Reserve env (r.FormValue "path")
          (ParseUint (r.FormValue "bytes")).1).2 with
      | none => simp [Reply.definite]
      | some err =>
        have hmsg := reserve_error_message_ne_empty (ParseUint (r.FormValue "bytes")).1
          (r.FormValue "path") err.Error
        simp [Reply.definite, hmsg]

theorem makeReleaseHandler_definite (service : VolumeService) (env : Env) (r : Request) :
    ∃ reply, service.makeReleaseHandler env r = some reply ∧ reply.definite := by
  by_cases hp : r.FormValue "path" = ""
  · exact ⟨_, makeReleaseHandler_no_path service env r hp, by simp [Reply.definite]⟩
  · obtain ⟨mp, hmp⟩ := resolveMountpoint_isSome env (r.FormValue "path")
    exact ⟨_, makeReleaseHandler_valid service env r mp hp hmp, by simp [Reply.definite]⟩

theorem makeReportHandler_definite (service : VolumeService) (env : Env) (r : Request) :
    ∃ reply, service.makeReportHandler env r = some reply ∧ reply.definite := by
  by_cases hp : r.FormValue "path" = ""
  · exact ⟨_, makeReportHandler_no_path service env r hp, by simp [Reply.definite]⟩
  · obtain ⟨mp, hmp⟩ := resolveMountpoint_isSome env (r.FormValue "path")
    exact ⟨_, makeReportHandler_valid service env r mp hp hmp, by simp [Reply.definite]⟩

/-- C11: every reply of the reserve, release, report and ping handlers, for every
registry, environment and request, is a definite outcome: the handler returns a
reply, `Succeeded` is true exactly when `ErrorMessage` is empty and exactly when
the status is 200, and a reply with `Succeeded = false` has a non-empty
`ErrorMessage` and nil `Data`.  The ping handler always replies with
`Succeeded = true` and status 200 and leaves the service as it was. -/
theorem replies_are_definite (service : VolumeService) (env : Env) (r : Request) :
    (∃ reply, service.makeReserveHandler env r = some reply ∧ reply.definite) ∧
    (∃ reply, service.makeReleaseHandler env r = some reply ∧ reply.definite) ∧
    (∃ reply, service.makeReportHandler env r = some reply ∧ reply.definite) ∧
    (∃ reply, service.makePingHandler r = some reply ∧ reply.definite) ∧
    service.makePingHandler r =
      some { service := service, status := 200,
             response := { Succeeded := true, ErrorMessage := "", Data := none } } := by
  refine ⟨makeReserveHandler_definite service env r, makeReleaseHandler_definite service env r,
    makeReportHandler_definite service env r, ⟨_, rfl, ?_⟩, rfl⟩
  simp [Reply.definite, VolumeResponse.zero, StatusOK]

/-- C11 on a reserve request that the ledger rejects, on a registry that holds a
reservation. -/
theorem replies_are_definite_witness :
    (∃ reply,
      serviceWithReservation.makeReserveHandler (linuxEnv dfRootOnly 1000)
        (reserveRequest "/tmp/x" "8000") = some reply ∧ reply.definite) ∧
    ((serviceWithReservation.makeReserveHandler (linuxEnv dfRootOnly 1000)
        (reserveRequest "/tmp/x" "8000")).map fun reply =>
          (reply.status, reply.response.Succeeded)) = some (500, false) ∧
    serviceWithReservation.makePingHandler (reserveRequest "/tmp/x" "8000") =
      some { service := serviceWithReservation, status := 200,
             response := { Succeeded := true, ErrorMessage := "", Data := none } } :=
  ⟨(replies_are_definite serviceWithReservation (linuxEnv dfRootOnly 1000)
      (reserveRequest "/tmp/x" "8000")).1,
    by rfl,
    (replies_are_definite serviceWithReservation (linuxEnv dfRootOnly 1000)
      (reserveRequest "/tmp/x" "8000")).2.2.2.2⟩

end Vreserve
